import Mathlib

/-!
Verification of `create_datalad_addurls_csv.py`: a shallow embedding of the
URI parser (`_parse_s3_uri`), the paginated key lister
(`get_matching_s3_keys`) and the manifest writer (`create_add_urls_csv`),
together with theorems checking the specification's claims.

Machine conventions: Python strings are Lean `String`/`List Char`; the
S3 `list_objects_v2` network call is a pure function from the request
keyword arguments to a response; the generator's unbounded `while True`
loop is embedded with explicit fuel (the loop body consumes one fuel per
page, so any fuel at least the page count gives the full run).
-/

/-- Boolean test that the list `p` is an initial segment of `l`
(the semantics of Python's `str.startswith` on character lists). -/
def beginsWith : List Char → List Char → Bool
  | [], _ => true
  | _ :: _, [] => false
  | p :: ps, c :: cs => p == c && beginsWith ps cs

/-- Python `str.startswith`. -/
def pyStartswith (p s : String) : Bool :=
  beginsWith p.data s.data

/-- Python `str.endswith`: the reversed argument begins with the reversed pattern. -/
def pyEndswith (p s : String) : Bool :=
  beginsWith p.data.reverse s.data.reverse

/-- Python `str.strip(c)` for a single character: remove every leading and
trailing occurrence of `c`.  Used for `obj["ETag"].strip('"')`. -/
def pyStrip (c : Char) (s : String) : String :=
  (((s.data.dropWhile (fun x => x == c)).reverse.dropWhile (fun x => x == c)).reverse).asString

/-- Python `sep.join(parts)`. -/
def pyJoin (sep : String) : List String → String
  | [] => ""
  | [x] => x
  | x :: y :: rest => x ++ sep ++ pyJoin sep (y :: rest)

/-- Split a character list at the first occurrence of the character `c`:
`some (before, after)` when `c` occurs, `none` otherwise.  This is the
action of the regex fragment `[^c]*c` anchored at the start. -/
def splitOnce (c : Char) : List Char → Option (List Char × List Char)
  | [] => none
  | x :: xs =>
    if x == c then some ([], xs)
    else
      match splitOnce c xs with
      | none => none
      | some (l, r) => some (x :: l, r)

/-- The characters of the literal `s3://` URI scheme. -/
def schemeChars : List Char := ['s', '3', ':', '/', '/']

/-- Semantics of Python's `re.match(r"(s3:\/\/)?(?P<bucket>[^\/]*)\/(?P<key>.*)", s)`
returning the `bucket` and `key` captures.

Derivation from the backtracking regex engine:
* the optional group is tried first; with the scheme consumed, `[^/]*`
  greedily runs to the first `/` of the remainder and the literal `/`
  must follow, so this alternative succeeds exactly when the remainder
  after the 5 scheme characters contains a `/`, splitting it there;
* otherwise the group matches empty and `[^/]*` runs from position 0 to
  the first `/` of the whole string (failing when there is none);
* `.*` is greedy but does not cross a newline, and `re.match` does not
  anchor the end, so the `key` capture is the remainder truncated at the
  first newline. -/
def pyRegexMatch (cs : List Char) : Option (List Char × List Char) :=
  match beginsWith schemeChars cs, splitOnce '/' (cs.drop 5), splitOnce '/' cs with
  | true, some (b, k), _ => some (b, k.takeWhile (fun ch => ch != '\n'))
  | true, none, some (b, k) => some (b, k.takeWhile (fun ch => ch != '\n'))
  | true, none, none => none
  | false, _, some (b, k) => some (b, k.takeWhile (fun ch => ch != '\n'))
  | false, _, none => none

/-- The parsed locator: the `groupdict()` of the match, source lines 24-33. -/
structure S3Locator where
  bucket : String
  key : String
deriving DecidableEq

/-- `_parse_s3_uri` from the source: regex match, `ValueError` (here `none`)
when the pattern does not match, otherwise the bucket/key captures. -/
def _parse_s3_uri (s3_uri : String) : Option S3Locator :=
  match pyRegexMatch s3_uri.data with
  | none => none
  | some (b, k) => some { bucket := b.asString, key := k.asString }

/-- One object of a `list_objects_v2` response: the fields the program reads. -/
structure S3Object where
  Key : String
  ETag : String
deriving DecidableEq

/-- A `list_objects_v2` response: `Contents` and `NextContinuationToken`
are both optional (the program reads them with `try ... except KeyError`). -/
structure ListResponse where
  Contents : Option (List S3Object)
  NextContinuationToken : Option String
deriving DecidableEq

/-- The keyword arguments passed to `list_objects_v2`: `Bucket`, `MaxKeys`,
optional `Prefix` (field `pfx`) and optional `ContinuationToken`
(field `contToken`). -/
structure ListRequest where
  bucket : String
  maxKeys : Nat
  pfx : Option String
  contToken : Option String
deriving DecidableEq

/-- The body of the `for obj in contents` loop, source lines 111-118 with
`add_version=True` (the mode the command-line tool uses): keep the object
when its key starts with the parsed prefix and ends with the suffix, and
yield the pair of `"/".join(["s3:/", bucket, key])` and the ETag with
surrounding quotes stripped. -/
def processContents (bucket pfx suffix : String) : List S3Object → List (String × String)
  | [] => []
  | obj :: rest =>
    if pyStartswith pfx obj.Key && pyEndswith suffix obj.Key then
      (pyJoin "/" ["s3:/", bucket, obj.Key], pyStrip '"' obj.ETag) ::
        processContents bucket pfx suffix rest
    else
      processContents bucket pfx suffix rest

/-- The `while True` pagination loop of `get_matching_s3_keys`, source lines
101-126, with explicit fuel.  `api` is the pure embedding of
`s3.list_objects_v2`.  The loop returns the yielded records together with
the trace of requests it issued: stop (yielding nothing more) when a
response has no `Contents`; otherwise process the page, and continue with
the `ContinuationToken` updated in the kwargs exactly when the response
carries `NextContinuationToken`. -/
def listLoop (api : ListRequest → ListResponse) (bucket pfx suffix : String) :
    Nat → ListRequest → List (String × String) × List ListRequest
  | 0, _ => ([], [])
  | Nat.succ fuel, req =>
    match (api req).Contents with
    | none => ([], [req])
    | some contents =>
      match (api req).NextContinuationToken with
      | none => (processContents bucket pfx suffix contents, [req])
      | some tok =>
        let rest := listLoop api bucket pfx suffix fuel { req with contToken := some tok }
        (processContents bucket pfx suffix contents ++ rest.1, req :: rest.2)

/-- `get_matching_s3_keys` (source lines 63-126): parse the URI (`none`
propagates the `ValueError`), build the initial kwargs — `Bucket`,
`MaxKeys` 1000, plus `Prefix` exactly when the parsed key is non-empty —
and run the pagination loop. -/
def get_matching_s3_keys (api : ListRequest → ListResponse) (s3_uri suffix : String)
    (fuel : Nat) : Option (List (String × String) × List ListRequest) :=
  match _parse_s3_uri s3_uri with
  | none => none
  | some parsed =>
    let req : ListRequest :=
      { bucket := parsed.bucket, maxKeys := 1000,
        pfx := if parsed.key == "" then none else some parsed.key,
        contToken := none }
    some (listLoop api parsed.bucket parsed.key suffix fuel req)

/-- Python `str.split(sep)` with a non-empty separator, on character lists
with fuel (any fuel at least the list length gives the true result):
split at each non-overlapping occurrence of `sep`, left to right. -/
def pySplitAux (sep : List Char) : Nat → List Char → List (List Char)
  | _, [] => [[]]
  | 0, l => [l]
  | Nat.succ fuel, c :: cs =>
    if beginsWith sep (c :: cs) then
      [] :: pySplitAux sep fuel (cs.drop (sep.length - 1))
    else
      match pySplitAux sep fuel cs with
      | [] => [[c]]
      | p :: ps => (c :: p) :: ps

/-- Python `str.split(sep)` for non-empty `sep` (the program always splits
on `split_key + "/"`, which is non-empty). -/
def pySplit (sep l : List Char) : List (List Char) :=
  pySplitAux sep l.length l

/-- Python `str.replace(pat, rep)` on character lists with fuel:
replace each non-overlapping occurrence of `pat`, left to right. -/
def pyReplaceAux (pat rep : List Char) : Nat → List Char → List Char
  | _, [] => []
  | 0, l => l
  | Nat.succ fuel, c :: cs =>
    if beginsWith pat (c :: cs) then
      rep ++ pyReplaceAux pat rep fuel (cs.drop (pat.length - 1))
    else
      c :: pyReplaceAux pat rep fuel cs

/-- Python `str.replace` for non-empty `pat`. -/
def pyReplace (pat rep l : List Char) : List Char :=
  pyReplaceAux pat rep l.length l

/-- The filename derivation of the manifest writer, source line 171:
`s3_url.split(split_key + "/")[-1].replace("/", "//")`. -/
def derive_filename (s3_url split_key : String) : String :=
  (pyReplace ['/'] ['/', '/']
    ((pySplit (split_key ++ "/").data s3_url.data).getLastD [])).asString

/-- One CSV field under `csv.QUOTE_ALL` with quotechar `"`: the field with
each embedded quote doubled, wrapped in quotes. -/
def csvField (f : String) : String :=
  "\"" ++ (pyReplace ['"'] ['"', '"'] f.data).asString ++ "\""

/-- One CSV row: comma-joined quoted fields plus the `\r\n` terminator
(the `csv` module's default line terminator). -/
def csvRowText (fields : List String) : String :=
  pyJoin "," (fields.map csvField) ++ "\r\n"

/-- Concatenation of a list of strings. -/
def strConcat : List String → String
  | [] => ""
  | s :: rest => s ++ strConcat rest

/-- The text `create_add_urls_csv` writes (source lines 163-172): the header
row followed by one row `[url, dataset_name, filename, version]` per
record, with the filename derived from the url and the parsed key. -/
def manifestText (records : List (String × String)) (dataset_name split_key : String) :
    String :=
  csvRowText ["original_url", "dataset", "filename", "version"] ++
    strConcat (records.map fun r =>
      csvRowText [r.1, dataset_name, derive_filename r.1 split_key, r.2])

/-- The file-open mode of the writer, source line 161: `"w"` when overwrite
was requested, `"x"` otherwise. -/
def open_mode (overwrite : Bool) : String :=
  if overwrite then "w" else "x"

/-- The writer's interaction with the file system, source lines 161-172.
Python `open(path, mode)` raises `FileExistsError` when the mode is `"x"`
(exclusive create) and the path exists; mode `"w"` truncates, replacing
any previous contents.  The result is the error or the full text written. -/
def write_manifest (pathExists overwrite : Bool) (records : List (String × String))
    (dataset_name split_key : String) : Except String String :=
  if open_mode overwrite == "x" && pathExists then
    Except.error "FileExistsError"
  else
    Except.ok (manifestText records dataset_name split_key)

/-- Whether `pat` occurs as a contiguous sublist of `l` (Python `pat in l`). -/
def occursIn (pat : List Char) : List Char → Bool
  | [] => beginsWith pat []
  | c :: cs => beginsWith pat (c :: cs) || occursIn pat cs

/-! ### Concrete fixtures used by the tests of the claims -/

/-- First object of the mocked first page. -/
def o1 : S3Object := { Key := "data/a.txt", ETag := "\"etag1\"" }

/-- Second object of the mocked first page. -/
def o2 : S3Object := { Key := "data/b.txt", ETag := "\"etag2\"" }

/-- The single object of the mocked second page. -/
def o3 : S3Object := { Key := "data/c.txt", ETag := "\"etag3\"" }

/-- A mocked listing API with two pages: the request without a continuation
token gets two objects plus the token `tok2`; any request with a token gets
one object and no token. -/
def mockApi2 (req : ListRequest) : ListResponse :=
  match req.contToken with
  | none => { Contents := some [o1, o2], NextContinuationToken := some "tok2" }
  | some _ => { Contents := some [o3], NextContinuationToken := none }

/-- A mocked listing API whose second page has no `Contents` field even
though it does carry a further continuation token. -/
def mockApiTrunc (req : ListRequest) : ListResponse :=
  match req.contToken with
  | none => { Contents := some [o1, o2], NextContinuationToken := some "tok2" }
  | some _ => { Contents := none, NextContinuationToken := some "tok3" }

/-- A mocked listing API for an empty bucket: no `Contents` field at all. -/
def mockApiEmpty (_ : ListRequest) : ListResponse :=
  { Contents := none, NextContinuationToken := none }

/-- The initial kwargs the lister builds for `s3://bucket/data`. -/
def mockReq1 : ListRequest :=
  { bucket := "bucket", maxKeys := 1000, pfx := some "data", contToken := none }

/-- The kwargs of the second request: the continuation token added. -/
def mockReq2 : ListRequest :=
  { bucket := "bucket", maxKeys := 1000, pfx := some "data", contToken := some "tok2" }

/-! ### Theorems -/

/-- C1: with the two-page mocked API, the lister yields exactly the three
records in page order, issues exactly one request per page — the second
carrying the first page's continuation token — with no duplicate request,
and stops after the page whose response has no token. -/
theorem c1_pagination_trace :
    get_matching_s3_keys mockApi2 "s3://bucket/data" "" 10 =
      some ([("s3://bucket/data/a.txt", "etag1"), ("s3://bucket/data/b.txt", "etag2"),
             ("s3://bucket/data/c.txt", "etag3")], [mockReq1, mockReq2]) ∧
    mockReq2.contToken = some "tok2" ∧ mockReq1 ≠ mockReq2 := by
  decide

/-- The page-processing loop is exactly: filter by prefix and suffix, then
map each kept object to its record. -/
theorem processContents_eq_filter_map (bucket pfx suffix : String)
    (contents : List S3Object) :
    processContents bucket pfx suffix contents =
      (contents.filter (fun o => pyStartswith pfx o.Key && pyEndswith suffix o.Key)).map
        (fun o => (pyJoin "/" ["s3:/", bucket, o.Key], pyStrip '"' o.ETag)) := by
  induction contents with
  | nil => rfl
  | cons o rest ih =>
    by_cases h : (pyStartswith pfx o.Key && pyEndswith suffix o.Key) = true
    · simp [processContents, List.filter, h, ih]
    · simp [processContents, List.filter, h, ih]

/-- C2: an object of a listed page is kept — contributing its record to the
output, in order — exactly when its key starts with the parsed prefix and
ends with the requested suffix; in particular objects whose key does not
end with the suffix are dropped. -/
theorem c2_filter_semantics (bucket pfx suffix : String) (contents : List S3Object) :
    processContents bucket pfx suffix contents =
      (contents.filter (fun o => pyStartswith pfx o.Key && pyEndswith suffix o.Key)).map
        (fun o => (pyJoin "/" ["s3:/", bucket, o.Key], pyStrip '"' o.ETag)) :=
  processContents_eq_filter_map bucket pfx suffix contents

/-- C3: for the object key `prefix/sub/file.txt` under parsed key `prefix`,
the writer derives the filename `sub//file.txt`: the last segment of the
split on `prefix/`, with each remaining separator doubled. -/
theorem c3_filename_example :
    derive_filename "s3://bucket/prefix/sub/file.txt" "prefix" = "sub//file.txt" := by
  decide

/-- C5 (code behavior at the failing input): `s3://bucket` has no `/` after
the scheme, yet the parser does not fail — the regex backtracks, matching
the optional scheme group empty — returning bucket `s3:` and key
`/bucket`; only a string with no `/` at all, such as `bucket`, fails. -/
theorem c5_scheme_swallowed :
    _parse_s3_uri "s3://bucket" = some { bucket := "s3:", key := "/bucket" } ∧
    _parse_s3_uri "bucket" = none := by
  decide

/-- `String.append` concatenates the underlying character lists. -/
theorem data_append (s t : String) : (s ++ t).data = s.data ++ t.data := rfl

/-- The character list of the literal `"/"`. -/
theorem slash_data : ("/" : String).data = ['/'] := rfl

/-- The character list of the literal `"s3://"` is `schemeChars`. -/
theorem scheme_data : ("s3://" : String).data = schemeChars := rfl

/-- Rebuilding a string from its own characters is the identity. -/
theorem asString_data (s : String) : s.data.asString = s := rfl

/-- A list always begins with itself. -/
theorem beginsWith_self_append : ∀ (p t : List Char), beginsWith p (p ++ t) = true
  | [], _ => rfl
  | p :: ps, t => by simp [beginsWith, beginsWith_self_append ps t]

/-- Dropping the five scheme characters. -/
theorem drop5_scheme (l : List Char) : (schemeChars ++ l).drop 5 = l := rfl

/-- `splitOnce` finds the first slash: splitting `l ++ '/' :: r` with no
slash in `l` gives `(l, r)`. -/
theorem splitOnce_no_slash : ∀ (l r : List Char), '/' ∉ l →
    splitOnce '/' (l ++ '/' :: r) = some (l, r)
  | [], r, _ => by simp [splitOnce]
  | x :: xs, r, h => by
    have hx : x ≠ '/' := by intro e; subst e; exact h (List.mem_cons_self _ _)
    have hxs : '/' ∉ xs := fun m => h (List.mem_cons_of_mem _ m)
    simp [splitOnce, hx, splitOnce_no_slash xs r hxs]

/-- `takeWhile` for "no newline" keeps a newline-free list whole. -/
theorem takeWhile_no_newline : ∀ (l : List Char), '\n' ∉ l →
    l.takeWhile (fun ch => ch != '\n') = l
  | [], _ => rfl
  | x :: xs, h => by
    have hx : x ≠ '\n' := by intro e; subst e; exact h (List.mem_cons_self _ _)
    have hxs : '\n' ∉ xs := fun m => h (List.mem_cons_of_mem _ m)
    have hbx : (x != '\n') = true := by simpa using hx
    simp [List.takeWhile, hbx, takeWhile_no_newline xs hxs]

/-- A string of the shape `bucket/first-segment/...` does not begin with the
`s3://` scheme when the bucket part has no slash and the first key segment
is non-empty and slash-free. -/
theorem beginsWith_scheme_false (Bd Ad rest : List Char) (hB : '/' ∉ Bd)
    (hA0 : Ad ≠ []) (hA : '/' ∉ Ad) :
    beginsWith schemeChars (Bd ++ '/' :: (Ad ++ '/' :: rest)) = false := by
  rcases Ad with _ | ⟨a0, Ad'⟩
  · exact absurd rfl hA0
  have ha0 : ('/' : Char) ≠ a0 := by
    intro e; exact hA (by simp [← e])
  rcases Bd with _ | ⟨c0, Bd⟩
  · simp [schemeChars, beginsWith]
  rcases Bd with _ | ⟨c1, Bd⟩
  · simp [schemeChars, beginsWith]
  rcases Bd with _ | ⟨c2, Bd⟩
  · simp [schemeChars, beginsWith]
  rcases Bd with _ | ⟨c3, Bd⟩
  · simp [schemeChars, beginsWith, ha0]
  have hc3 : ('/' : Char) ≠ c3 := by
    intro e; exact hB (by simp [← e])
  simp [schemeChars, beginsWith, hc3]

/-- C4: any URI of the form `bucket/a/b/c` — the bucket slash-free, the
first key segment non-empty and slash-free, the segments newline-free —
parses, with or without the `s3://` scheme, to that bucket and the key
`a/b/c`. -/
theorem c4_uri_parse (B a b c : String) (hB : '/' ∉ B.data) (ha0 : a ≠ "")
    (haS : '/' ∉ a.data) (hna : '\n' ∉ a.data) (hnb : '\n' ∉ b.data)
    (hnc : '\n' ∉ c.data) :
    _parse_s3_uri (B ++ "/" ++ a ++ "/" ++ b ++ "/" ++ c) =
      some { bucket := B, key := a ++ "/" ++ b ++ "/" ++ c } ∧
    _parse_s3_uri ("s3://" ++ B ++ "/" ++ a ++ "/" ++ b ++ "/" ++ c) =
      some { bucket := B, key := a ++ "/" ++ b ++ "/" ++ c } := by
  have hA0 : a.data ≠ [] := by
    intro h
    exact ha0 (String.ext (by simpa using h))
  have hKd : (a ++ "/" ++ b ++ "/" ++ c).data =
      a.data ++ '/' :: (b.data ++ '/' :: c.data) := by
    simp [data_append, slash_data, List.append_assoc]
  have hKnl : '\n' ∉ a.data ++ '/' :: (b.data ++ '/' :: c.data) := by
    intro hmem
    simp only [List.mem_append, List.mem_cons] at hmem
    rcases hmem with h | h | h | h | h
    · exact hna h
    · exact absurd h (by decide)
    · exact hnb h
    · exact absurd h (by decide)
    · exact hnc h
  have htk : (a.data ++ '/' :: (b.data ++ '/' :: c.data)).takeWhile
      (fun ch => ch != '\n') = a.data ++ '/' :: (b.data ++ '/' :: c.data) :=
    takeWhile_no_newline _ hKnl
  have hsp : splitOnce '/' (B.data ++ '/' :: (a.data ++ '/' :: (b.data ++ '/' :: c.data))) =
      some (B.data, a.data ++ '/' :: (b.data ++ '/' :: c.data)) :=
    splitOnce_no_slash _ _ hB
  constructor
  · have hcs : (B ++ "/" ++ a ++ "/" ++ b ++ "/" ++ c).data =
        B.data ++ '/' :: (a.data ++ '/' :: (b.data ++ '/' :: c.data)) := by
      simp [data_append, slash_data, List.append_assoc]
    have hbw : beginsWith schemeChars
        (B.data ++ '/' :: (a.data ++ '/' :: (b.data ++ '/' :: c.data))) = false :=
      beginsWith_scheme_false B.data a.data _ hB hA0 haS
    simp only [_parse_s3_uri, hcs, pyRegexMatch, hbw, hsp, htk]
    rw [← hKd]
    rfl
  · have hcs : ("s3://" ++ B ++ "/" ++ a ++ "/" ++ b ++ "/" ++ c).data =
        's' :: '3' :: ':' :: '/' :: '/' ::
          (B.data ++ '/' :: (a.data ++ '/' :: (b.data ++ '/' :: c.data))) := by
      simp [data_append, slash_data, List.append_assoc]
    have hbw : beginsWith schemeChars
        ('s' :: '3' :: ':' :: '/' :: '/' ::
          (B.data ++ '/' :: (a.data ++ '/' :: (b.data ++ '/' :: c.data)))) = true :=
      beginsWith_self_append schemeChars _
    have hdp : List.drop 5
        ('s' :: '3' :: ':' :: '/' :: '/' ::
          (B.data ++ '/' :: (a.data ++ '/' :: (b.data ++ '/' :: c.data)))) =
        B.data ++ '/' :: (a.data ++ '/' :: (b.data ++ '/' :: c.data)) :=
      drop5_scheme _
    simp only [_parse_s3_uri, hcs, pyRegexMatch, hbw, hdp, hsp, htk]
    rw [← hKd]
    rfl

/-- Witness for C4 at `bucket/a/b/c`. -/
theorem c4_uri_parse_witness :
    ('/' ∉ "bucket".data ∧ "a" ≠ "" ∧ '/' ∉ "a".data ∧ '\n' ∉ "a".data ∧
      '\n' ∉ "b".data ∧ '\n' ∉ "c".data) ∧
    (_parse_s3_uri "bucket/a/b/c" = some { bucket := "bucket", key := "a/b/c" } ∧
     _parse_s3_uri "s3://bucket/a/b/c" = some { bucket := "bucket", key := "a/b/c" }) :=
  ⟨by decide, c4_uri_parse "bucket" "a" "b" "c" (by decide) (by decide) (by decide)
    (by decide) (by decide) (by decide)⟩

/-- Every record of a processed page comes from an object of that page. -/
theorem mem_processContents (bucket pfx suffix : String) :
    ∀ (contents : List S3Object) (r : String × String),
      r ∈ processContents bucket pfx suffix contents →
      ∃ obj, obj ∈ contents ∧
        r = (pyJoin "/" ["s3:/", bucket, obj.Key], pyStrip '"' obj.ETag) := by
  intro contents
  induction contents with
  | nil => intro r hr; simp [processContents] at hr
  | cons o rest ih =>
    intro r hr
    by_cases h : (pyStartswith pfx o.Key && pyEndswith suffix o.Key) = true
    · simp only [processContents, if_pos h] at hr
      rcases List.mem_cons.mp hr with he | hm
      · exact ⟨o, List.mem_cons_self _ _, he⟩
      · obtain ⟨obj, hmem, heq⟩ := ih r hm
        exact ⟨obj, List.mem_cons_of_mem _ hmem, heq⟩
    · simp only [processContents, if_neg h] at hr
      obtain ⟨obj, hmem, heq⟩ := ih r hr
      exact ⟨obj, List.mem_cons_of_mem _ hmem, heq⟩

/-- C6: every record the lister yields is the pair of the object URL
`"/".join(["s3:/", bucket, key])` — that is `s3://bucket/key` — and the
object's ETag with its surrounding quotes stripped, for some object of
some listing response. -/
theorem c6_record_shape (api : ListRequest → ListResponse) (bucket pfx suffix : String) :
    ∀ (fuel : Nat) (req : ListRequest) (r : String × String),
      r ∈ (listLoop api bucket pfx suffix fuel req).1 →
      ∃ req2 contents obj, (api req2).Contents = some contents ∧ obj ∈ contents ∧
        r = (pyJoin "/" ["s3:/", bucket, obj.Key], pyStrip '"' obj.ETag) := by
  intro fuel
  induction fuel with
  | zero => intro req r hr; simp [listLoop] at hr
  | succ n ih =>
    intro req r hr
    rcases hC : (api req).Contents with _ | contents
    · simp [listLoop, hC] at hr
    · rcases hT : (api req).NextContinuationToken with _ | tok
      · simp only [listLoop, hC, hT] at hr
        obtain ⟨obj, hmem, heq⟩ := mem_processContents bucket pfx suffix contents r hr
        exact ⟨req, contents, obj, hC, hmem, heq⟩
      · simp only [listLoop, hC, hT] at hr
        rcases List.mem_append.mp hr with hl | hrr
        · obtain ⟨obj, hmem, heq⟩ := mem_processContents bucket pfx suffix contents r hl
          exact ⟨req, contents, obj, hC, hmem, heq⟩
        · exact ih _ r hrr

/-- Witness for C6: the first record of the two-page mock run. -/
theorem c6_record_shape_witness :
    ∃ req2 contents obj, (mockApi2 req2).Contents = some contents ∧ obj ∈ contents ∧
      (("s3://bucket/data/a.txt", "etag1") : String × String) =
        (pyJoin "/" ["s3:/", "bucket", obj.Key], pyStrip '"' obj.ETag) :=
  c6_record_shape mockApi2 "bucket" "data" "" 10 mockReq1
    ("s3://bucket/data/a.txt", "etag1") (by decide)

/-- C7: when the first listing response has no `Contents` field, the lister
yields no record (and raises nothing), and the manifest text for an empty
record sequence is exactly the quoted header row. -/
theorem c7_empty_bucket (api : ListRequest → ListResponse)
    (bucket pfx suffix ds sk : String) (req : ListRequest) (fuel : Nat)
    (h : (api req).Contents = none) :
    (listLoop api bucket pfx suffix (fuel + 1) req).1 = [] ∧
    manifestText [] ds sk = "\"original_url\",\"dataset\",\"filename\",\"version\"\r\n" := by
  constructor
  · simp [listLoop, h]
  · rfl

/-- Witness for C7 on the empty-bucket mock. -/
theorem c7_empty_bucket_witness :
    (listLoop mockApiEmpty "bucket" "data" "" 1 mockReq1).1 = [] ∧
    manifestText [] "data" "data" =
      "\"original_url\",\"dataset\",\"filename\",\"version\"\r\n" :=
  c7_empty_bucket mockApiEmpty "bucket" "data" "" "data" "data" mockReq1 0 rfl

/-- C8: with the output path pre-existing and overwrite not requested the
writer fails with the file-conflict error and writes nothing; with
overwrite requested it succeeds and the file contents are replaced by the
new manifest, whether or not the path existed. -/
theorem c8_overwrite_mode (pathExists : Bool) (records : List (String × String))
    (ds sk : String) :
    write_manifest true false records ds sk = Except.error "FileExistsError" ∧
    write_manifest pathExists true records ds sk =
      Except.ok (manifestText records ds sk) :=
  ⟨rfl, rfl⟩

/-- C9: when any response mid-run has no `Contents` field — here the one
after a page that did carry a continuation token — the lister ends
silently at that point: it keeps the earlier pages' records, raises
nothing, and issues no request beyond the one that got the bad response,
even though that response carried a further token. -/
theorem c9_missing_contents_mid_run (api : ListRequest → ListResponse)
    (bucket pfx suffix : String) (req : ListRequest) (page1 : List S3Object)
    (tok : String) (fuel : Nat)
    (h1 : (api req).Contents = some page1)
    (h2 : (api req).NextContinuationToken = some tok)
    (h3 : (api { req with contToken := some tok }).Contents = none) :
    listLoop api bucket pfx suffix (fuel + 1 + 1) req =
      (processContents bucket pfx suffix page1,
       [req, { req with contToken := some tok }]) := by
  simp [listLoop, h1, h2, h3]

/-- Witness for C9 on the truncated mock: the second response has no
`Contents` though it carries token `tok3`; only the first page's records
come out and only two requests are issued. -/
theorem c9_missing_contents_mid_run_witness :
    listLoop mockApiTrunc "bucket" "data" "" 2 mockReq1 =
      ([("s3://bucket/data/a.txt", "etag1"), ("s3://bucket/data/b.txt", "etag2")],
       [mockReq1, mockReq2]) :=
  c9_missing_contents_mid_run mockApiTrunc "bucket" "data" "" mockReq1 [o1, o2]
    "tok2" 0 rfl rfl rfl

/-- Splitting on a separator that does not occur returns the whole list. -/
theorem pySplitAux_no_occ (sep : List Char) :
    ∀ (fuel : Nat) (l : List Char), occursIn sep l = false → pySplitAux sep fuel l = [l] := by
  intro fuel
  induction fuel with
  | zero => intro l _; cases l <;> rfl
  | succ n ih =>
    intro l h
    cases l with
    | nil => rfl
    | cons c cs =>
      simp only [occursIn, Bool.or_eq_false_iff] at h
      simp [pySplitAux, h.1, ih cs h.2]

/-- `pySplit` on a separator that does not occur returns the whole list. -/
theorem pySplit_no_occ (sep l : List Char) (h : occursIn sep l = false) :
    pySplit sep l = [l] :=
  pySplitAux_no_occ sep l.length l h

/-- C10: when the object URL contains no occurrence of the parsed key
followed by a slash — as when the object key equals the parsed key — the
split finds no separator, and the derived filename is the whole object URL
with every slash doubled. -/
theorem c10_whole_url_doubled (bucket pfx : String)
    (h : occursIn (pfx ++ "/").data (pyJoin "/" ["s3:/", bucket, pfx]).data = false) :
    derive_filename (pyJoin "/" ["s3:/", bucket, pfx]) pfx =
      (pyReplace ['/'] ['/', '/'] (pyJoin "/" ["s3:/", bucket, pfx]).data).asString := by
  unfold derive_filename
  rw [pySplit_no_occ _ _ h]
  rfl

/-- Witness for C10 at bucket `bucket`, key and parsed key both `prefix`. -/
theorem c10_whole_url_doubled_witness :
    occursIn ("prefix/".data) ("s3://bucket/prefix".data) = false ∧
    derive_filename "s3://bucket/prefix" "prefix" = "s3:////bucket//prefix" :=
  ⟨by decide, Eq.trans (c10_whole_url_doubled "bucket" "prefix" (by decide)) (by decide)⟩
